import Mathlib

/-!
# Verification of `pkg/controller/dgraph/models/query/pod.go` (purser)

Shallow embedding of the pod query builder: the dgraph query strings built by
the Go code are embedded as structured request values together with an
evaluation semantics over a small graph model, string-embedded `math(...)`
expressions become rational-valued functions, and each store round trip
becomes an explicit `Except` response argument.  Timestamps, prices and
resource quantities are modelled as rationals (the Go code manipulates them
as float64 literals spliced into query text; none of the claims depends on
floating-point rounding).
-/

namespace Purser

/-- Modelled from the spec: the wildcard target constant `All` (defined in the
query package outside the provided source slice).  The spec calls it "the
wildcard target (\"all\")". -/
def All : String := "all"

/-- Modelled from the spec: process-wide default CPU unit price
(`models.DefaultCPUCostInFloat64`, defined outside the provided source slice;
the concrete value is irrelevant to every claim). -/
def DefaultCPUCostInFloat64 : ℚ := 24 / 1000

/-- Modelled from the spec: process-wide default memory unit price
(`models.DefaultMemCostInFloat64`, outside the provided source slice). -/
def DefaultMemCostInFloat64 : ℚ := 1 / 100

/-- Modelled from the spec: process-wide default storage unit price
(`models.DefaultStorageCostPerGBPerHour`, outside the provided source slice;
in the Go code it is a string literal spliced into the query text). -/
def DefaultStorageCostPerGBPerHour : ℚ := 1 / 7200

/-- Projection of `models.Pod` (the struct itself is outside the provided
source slice) onto the fields `pod.go` reads: the store-assigned identifier
`uid`, the `name`, and the decoded per-node override prices.  A price
predicate absent on the stored node decodes to the Go zero value `0`. -/
structure Pod where
  uid : String
  name : String
  cpuPrice : ℚ
  memoryPrice : ℚ
deriving DecidableEq, Repr

/-! ## Interactions query (`RetrievePodsInteractions`)

The three branches of `RetrievePodsInteractions` emit query strings that are
identical except for the root `@filter` on `pods(func: has(isPod))`:

* `name == All`, `isOrphan == true` : no `@filter` at all;
* `name == All`, `isOrphan == false`: `@filter(has(pod))`;
* named target                      : `@filter(eq(name, "<name>"))`.

The body (`name`, `outbound: pod { name }`, `inbound: ~pod @filter(has(isPod))
{ name }`) is literally the same text in all three branches, so the request is
embedded as its root filter. -/

/-- Root filter of the interactions query, one constructor per textual
alternative in the Go source. -/
inductive InteractionsRootFilter where
  /-- `pods(func: has(isPod))` with no `@filter`. -/
  | noFilter : InteractionsRootFilter
  /-- `@filter(has(pod))`: the node has at least one outbound `pod` edge. -/
  | hasOutboundPod : InteractionsRootFilter
  /-- `@filter(eq(name, "<n>"))`. -/
  | nameEq (n : String) : InteractionsRootFilter
deriving DecidableEq, Repr

/-- The interactions request built by `RetrievePodsInteractions` for a target
`name` and the `isOrphan` flag, following the branch structure of the Go
source exactly. -/
def buildPodsInteractionsQuery (name : String) (isOrphan : Bool) :
    InteractionsRootFilter :=
  if name = All then
    if isOrphan then .noFilter
    else .hasOutboundPod
  else .nameEq name

/-- Graph-side view of a workload node for the interactions query: its `name`
and the targets of its outbound `pod` (selection) edges. -/
structure InteractionPod where
  name : String
  outboundPodTargets : List String
deriving DecidableEq, Repr

/-- An orphan in the spec's sense: a workload node with no outbound selection
edge. -/
def isOrphanNode (p : InteractionPod) : Bool :=
  p.outboundPodTargets.isEmpty

/-- Dgraph semantics of the three root filters on a single node:
`has(pod)` holds when the node has at least one outbound `pod` edge,
`eq(name, n)` compares the name. -/
def matchesInteractionsFilter (p : InteractionPod) :
    InteractionsRootFilter → Bool
  | .noFilter => true
  | .hasOutboundPod => !p.outboundPodTargets.isEmpty
  | .nameEq n => p.name == n

/-- Result set of the root selection of the interactions query over a graph
`g` (the set of nodes the request restricts the result to). -/
def interactionsRootSet (g : List InteractionPod) (name : String)
    (isOrphan : Bool) : List InteractionPod :=
  g.filter (fun p => matchesInteractionsFilter p
    (buildPodsInteractionsQuery name isOrphan))

/-! ## Pricing resolver (`getPricePerResourceForPod`) -/

/-- Graph-side view of a stored pod for the price lookup: recorded override
prices are optional predicates. -/
structure StoredPod where
  name : String
  cpuPrice : Option ℚ
  memoryPrice : Option ℚ
deriving DecidableEq, Repr

/-- Modelled from the spec: the price-lookup round trip
(`dgraph.ExecuteQuery` and its decoding live in `pkg/controller/dgraph`,
outside the provided source slice).  The query filters pods on
`eq(name, target)` and requests only `cpuPrice` and `memoryPrice`; a matched
node with neither predicate recorded is omitted from the result ("the node
exists but has no override" decodes to zero matching entries), and a missing
field of a returned node decodes to the Go zero value `0`. -/
def execPriceLookup (g : List StoredPod) (target : String) : List Pod :=
  (g.filter (fun p => p.name == target)).filterMap (fun p =>
    if p.cpuPrice.isSome || p.memoryPrice.isSome then
      some ⟨"", p.name, p.cpuPrice.getD 0, p.memoryPrice.getD 0⟩
    else none)

/-- `getPricePerResourceForPod`, taking the store's decoded response: on a
store error or fewer than one matched pod it returns the process-wide
defaults, otherwise the first matched pod's prices. -/
def getPricePerResourceForPod (resp : Except Unit (List Pod)) : ℚ × ℚ :=
  match resp with
  | .error _ => (DefaultCPUCostInFloat64, DefaultMemCostInFloat64)
  | .ok [] => (DefaultCPUCostInFloat64, DefaultMemCostInFloat64)
  | .ok (pod :: _) => (pod.cpuPrice, pod.memoryPrice)

/-! ## Time-window proration (the `math(...)` expressions of `RetrievePodMetrics`)

The metrics query splices one literal, `secondsSinceMonthStart`, into per-node
arithmetic evaluated by the store.  The parent block and the child block carry
textually identical expressions (with `Child`-suffixed variable names), so one
Lean function embeds both.  `now` is the store's evaluation time (`since(t)`
returns `now - t` in seconds), `st`/`et` are the node's `startTime` and
optional `endTime`, `w` is the spliced `secondsSinceMonthStart` literal. -/

/-- `since(t)`: seconds elapsed from `t` to the store's evaluation time. -/
def sinceSeconds (now t : ℚ) : ℚ := now - t

/-- `secondsSinceStart as math(cond(stSeconds > w, w, stSeconds))` where
`stSeconds as math(since(st))`. -/
def secondsSinceStartExpr (now st w : ℚ) : ℚ :=
  if sinceSeconds now st > w then w else sinceSeconds now st

/-- `isTerminated as count(endTime)`: 1 when the node has an `endTime`. -/
def isTerminatedCount (et : Option ℚ) : ℕ :=
  match et with
  | none => 0
  | some _ => 1

/-- `secondsSinceEnd as math(cond(isTerminated == 0, 0.0, since(et)))`. -/
def secondsSinceEndExpr (now : ℚ) (et : Option ℚ) : ℚ :=
  if isTerminatedCount et = 0 then 0 else sinceSeconds now (et.getD 0)

/-- `durationInHours as math((secondsSinceStart - secondsSinceEnd) / 3600)`. -/
def durationInHoursExpr (now st : ℚ) (et : Option ℚ) (w : ℚ) : ℚ :=
  (secondsSinceStartExpr now st w - secondsSinceEndExpr now et) / 3600

/-! ## Metrics query construction (`RetrievePodMetrics`) -/

/-- The literals `RetrievePodMetrics` splices into the metrics query text:
the root name filter, the `secondsSinceMonthStart` window literal, the CPU and
memory unit prices obtained from the pricing resolver, and the storage unit
price (the `models.DefaultStorageCostPerGBPerHour` literal). -/
structure PodMetricsQuery where
  targetName : String
  secondsSinceMonthStart : ℚ
  cpuPrice : ℚ
  memoryPrice : ℚ
  storagePrice : ℚ
deriving DecidableEq, Repr

/-- The metrics request built by `RetrievePodMetrics` for target `name`:
`cpuPrice`/`memoryPrice` come from `getPricePerResourceForPod` (whose store
response is `priceResp`), the storage price is always the global default
constant — the query text has no per-node storage price source. -/
def buildPodMetricsQuery (name : String) (secondsSinceMonthStart : ℚ)
    (priceResp : Except Unit (List Pod)) : PodMetricsQuery :=
  let prices := getPricePerResourceForPod priceResp
  ⟨name, secondsSinceMonthStart, prices.1, prices.2,
    DefaultStorageCostPerGBPerHour⟩

/-- `cpuCost: math(cpu * durationInHours * <cpuPrice literal>)` for a node of
the metrics query (same expression in the parent and the child block). -/
def nodeCpuCost (q : PodMetricsQuery) (now st : ℚ) (et : Option ℚ)
    (cpu : ℚ) : ℚ :=
  cpu * durationInHoursExpr now st et q.secondsSinceMonthStart * q.cpuPrice

/-- `memoryCost: math(memory * durationInHours * <memoryPrice literal>)`. -/
def nodeMemoryCost (q : PodMetricsQuery) (now st : ℚ) (et : Option ℚ)
    (memory : ℚ) : ℚ :=
  memory * durationInHoursExpr now st et q.secondsSinceMonthStart *
    q.memoryPrice

/-- `storageCost: math(pvcStorage * durationInHours * <storage literal>)`
(parent block only). -/
def nodeStorageCost (q : PodMetricsQuery) (now st : ℚ) (et : Option ℚ)
    (pvcStorage : ℚ) : ℚ :=
  pvcStorage * durationInHoursExpr now st et q.secondsSinceMonthStart *
    q.storagePrice

/-! ## Hierarchy / metrics operations and the store boundary

Each store round trip is an explicit `Except` argument: `.error` is a failed
store call, `.ok` carries the decoded response.  The second component of the
result of `RetrievePodHierarchy` / `RetrievePodMetrics` counts the store
calls the operation issues (0 on the short-circuited usage-error path; the
metrics operation otherwise issues two calls: the price lookup and the main
query). -/

/-- The decoded wrapper returned by the hierarchy/metrics operations
(`JSONDataWrapper` is declared outside the provided source slice); `⟨none⟩`
is the empty zero value `JSONDataWrapper{}`. -/
structure JSONDataWrapper where
  data : Option String
deriving DecidableEq, Repr

/-- Modelled from the spec: `getJSONDataFromQuery` (outside the provided
source slice) executes the query and decodes the response; on a store or
decode error it logs and returns the empty wrapper, never an error. -/
def getJSONDataFromQuery (resp : Except Unit JSONDataWrapper) :
    JSONDataWrapper :=
  match resp with
  | .error _ => ⟨none⟩
  | .ok d => d

/-- `RetrievePodHierarchy`: short-circuits with the empty wrapper and zero
store calls when `name == All` (logging the usage error), otherwise builds
the hierarchy query and issues it (one store call, response `resp`). -/
def RetrievePodHierarchy (name : String)
    (resp : Except Unit JSONDataWrapper) : JSONDataWrapper × ℕ :=
  if name = All then (⟨none⟩, 0)
  else (getJSONDataFromQuery resp, 1)

/-- `RetrievePodMetrics`: short-circuits with the empty wrapper and zero
store calls when `name == All`; otherwise resolves prices (store call 1,
response `priceResp`), builds the metrics query with those prices inlined,
and issues it (store call 2, response `resp`). -/
def RetrievePodMetrics (name : String) (secondsSinceMonthStart : ℚ)
    (priceResp : Except Unit (List Pod))
    (resp : Except Unit JSONDataWrapper) : JSONDataWrapper × ℕ :=
  if name = All then (⟨none⟩, 0)
  else
    let _q := buildPodMetricsQuery name secondsSinceMonthStart priceResp
    (getJSONDataFromQuery resp, 2)

/-- `RetrievePodsInteractions`: builds the interactions query and executes it
raw (`store` maps the built request to the raw byte payload); on a store
error it logs and returns `nil` (`none`), otherwise the raw payload. -/
def RetrievePodsInteractions (name : String) (isOrphan : Bool)
    (store : InteractionsRootFilter → Except String String) :
    Option String :=
  match store (buildPodsInteractionsQuery name isOrphan) with
  | .error _ => none
  | .ok result => some result

/-- `RetrievePodsInteractionsForAllLivePodsWithCount`: issues the live-pods
query and propagates a store error to the caller. -/
def RetrievePodsInteractionsForAllLivePodsWithCount
    (resp : Except Unit (List Pod)) : Except Unit (List Pod) :=
  match resp with
  | .error err => .error err
  | .ok pods => .ok pods

/-! ## Label-filtered identifiers (`RetrievePodsUIDsByLabelsFilter`) -/

/-- Graph-side view of a label node: its key/value and the pods reached over
the reverse `~label` association edge. -/
structure LabelNode where
  key : String
  value : String
  podTargets : List Pod
deriving DecidableEq, Repr

/-- Modelled from the spec: the predicate built by
`createFilterFromListOfLabels` (outside the provided source slice) — the OR
of `eq(key, value)` over all provided label/value pairs; no AND across
different keys or values.  The Go `map[string][]string` argument is embedded
as an association list. -/
def labelFilterPredicate (labels : List (String × List String))
    (ln : LabelNode) : Bool :=
  labels.any (fun kv => kv.2.any (fun v => ln.key == kv.1 && ln.value == v))

/-- Dgraph semantics of the first query block: `var(func: has(isLabel))
@filter(<labelFilter>) { podUIDs as ~label ... }` binds the variable
`podUIDs` to the pods associated with any label node matching the
predicate; the second block `pods(func: uid(podUIDs))` resolves that
variable to the pods' `uid` and `name`. -/
def evalLabelsQuery (g : List LabelNode)
    (labels : List (String × List String)) : List Pod :=
  (g.filter (labelFilterPredicate labels)).foldr
    (fun ln acc => ln.podTargets ++ acc) []

/-- `removeDuplicates` loop body: the Go `duplicateChecker` seen-map is the
`seen` list, a pod whose `uid` was already seen is skipped, otherwise its
`uid` is appended to the output and recorded. -/
def removeDuplicatesGo (seen : List String) : List Pod → List String
  | [] => []
  | pod :: rest =>
    if seen.contains pod.uid then removeDuplicatesGo seen rest
    else pod.uid :: removeDuplicatesGo (pod.uid :: seen) rest

/-- `removeDuplicates`: first-occurrence deduplication of the pods' store
identifiers. -/
def removeDuplicates (pods : List Pod) : List String :=
  removeDuplicatesGo [] pods

/-- `RetrievePodsUIDsByLabelsFilter`: builds the two-stage label query,
propagates a store error to the caller, and otherwise deduplicates the
decoded pods' identifiers. -/
def RetrievePodsUIDsByLabelsFilter (resp : Except Unit (List Pod)) :
    Except Unit (List String) :=
  match resp with
  | .error err => .error err
  | .ok pods => .ok (removeDuplicates pods)

/-- From the spec's words, for comparison with `removeDuplicates`: "the
distinct identifiers in first-occurrence order" — keep each identifier's
first occurrence, drop every later repetition. -/
def dedupeSpec : List String → List String
  | [] => []
  | u :: us => u :: dedupeSpec (us.filter (fun v => !(v == u)))
termination_by l => l.length
decreasing_by
  simp only [List.length_cons]
  exact Nat.lt_succ_of_le (List.length_filter_le _ _)

/-! ## Helper lemmas -/

/-- The Go deduplication loop, run with an arbitrary set of already-seen
identifiers, agrees with the spec's first-occurrence deduplication of the
not-yet-seen identifiers. -/
theorem removeDuplicatesGo_eq_dedupeSpec (ps : List Pod) :
    ∀ seen : List String,
      removeDuplicatesGo seen ps =
        dedupeSpec ((ps.map Pod.uid).filter (fun u => !(seen.contains u))) := by
  induction ps with
  | nil => intro seen; simp [removeDuplicatesGo, dedupeSpec]
  | cons p rest ih =>
    intro seen
    by_cases h : seen.contains p.uid
    · rw [removeDuplicatesGo, if_pos h, List.map_cons, List.filter_cons, h]
      simpa using ih seen
    · have h' : seen.contains p.uid = false := by simpa using h
      rw [removeDuplicatesGo, if_neg h, List.map_cons, List.filter_cons, h']
      simp only [Bool.not_false, if_true]
      rw [dedupeSpec, ih (p.uid :: seen)]
      congr 1
      rw [List.filter_filter]
      congr 1
      apply List.filter_congr
      intro u _
      simp [List.contains_cons, Bool.not_or, Bool.and_comm,
        Bool.beq_eq_decide_eq]

/-- `removeDuplicates` computes exactly the spec's first-occurrence
deduplication of the identifier sequence. -/
theorem removeDuplicates_eq_dedupeSpec (ps : List Pod) :
    removeDuplicates ps = dedupeSpec (ps.map Pod.uid) := by
  rw [removeDuplicates, removeDuplicatesGo_eq_dedupeSpec]
  congr 1
  simp

/-- Membership is preserved by the spec's deduplication. -/
theorem mem_dedupeSpec (u : String) (l : List String) :
    u ∈ dedupeSpec l ↔ u ∈ l := by
  induction l using dedupeSpec.induct with
  | case1 => simp [dedupeSpec]
  | case2 v vs ih =>
    rw [dedupeSpec]
    by_cases h : u = v
    · simp [h]
    · simp [List.mem_cons, ih, List.mem_filter, h]

/-- Membership in `removeDuplicates` is membership among the input
identifiers. -/
theorem mem_removeDuplicates (u : String) (ps : List Pod) :
    u ∈ removeDuplicates ps ↔ u ∈ ps.map Pod.uid := by
  rw [removeDuplicates_eq_dedupeSpec, mem_dedupeSpec]

/-- A pod is produced by the label query's variable binding exactly when it
is an association target of some label node matching the filter
predicate. -/
theorem mem_evalLabelsQuery (p : Pod) (g : List LabelNode)
    (labels : List (String × List String)) :
    p ∈ evalLabelsQuery g labels ↔
      ∃ ln ∈ g, labelFilterPredicate labels ln = true ∧
        p ∈ ln.podTargets := by
  rw [evalLabelsQuery]
  induction g with
  | nil => simp
  | cons ln rest ih =>
    rw [List.filter_cons]
    by_cases h : labelFilterPredicate labels ln
    · rw [if_pos h]
      simp only [List.foldr_cons, List.mem_append, ih, List.mem_cons]
      constructor
      · rintro (hp | ⟨ln2, hln2, hpred, hp⟩)
        · exact ⟨ln, Or.inl rfl, h, hp⟩
        · exact ⟨ln2, Or.inr hln2, hpred, hp⟩
      · rintro ⟨ln2, hln2 | hln2, hpred, hp⟩
        · exact Or.inl (hln2 ▸ hp)
        · exact Or.inr ⟨ln2, hln2, hpred, hp⟩
    · rw [if_neg h]
      rw [ih]
      constructor
      · rintro ⟨ln2, hln2, hpred, hp⟩
        exact ⟨ln2, List.mem_cons_of_mem ln hln2, hpred, hp⟩
      · rintro ⟨ln2, hln2, hpred, hp⟩
        rcases List.mem_cons.mp hln2 with heq | hmem
        · exact absurd (heq ▸ hpred) h
        · exact ⟨ln2, hmem, hpred, hp⟩

end Purser

open Purser

/-- C1: the claim, taken at the wildcard target with the orphan flag set,
fails on the code: the generated request applies no root filter at all, so a
node with an outbound selection edge (a non-orphan) is in the result set,
contradicting "restricts the result to WorkloadNodes that have no outbound
selection edge". -/
theorem C1_counterexample :
    ¬ (∀ p ∈ interactionsRootSet [⟨"svc", ["web"]⟩] All true,
        isOrphanNode p = true) := by
  decide

/-- C1 (amended): for the wildcard target with the orphan flag true the
request applies no restriction (orphans and non-orphans alike are in the
result set); with the orphan flag false it restricts to nodes having at
least one outbound selection edge (non-orphans); for every named
(non-wildcard) target, the request filters to the nodes whose name equals
the target. -/
theorem C1_amended (g : List InteractionPod) (p : InteractionPod) :
    (p ∈ interactionsRootSet g All true ↔ p ∈ g) ∧
    (p ∈ interactionsRootSet g All false ↔ p ∈ g ∧ isOrphanNode p = false) ∧
    (∀ (name : String) (isOrphan : Bool), name ≠ All →
      (p ∈ interactionsRootSet g name isOrphan ↔ p ∈ g ∧ p.name = name)) := by
  refine ⟨?_, ?_, ?_⟩
  · simp [interactionsRootSet, buildPodsInteractionsQuery,
      matchesInteractionsFilter, List.mem_filter]
  · simp [interactionsRootSet, buildPodsInteractionsQuery,
      matchesInteractionsFilter, List.mem_filter, isOrphanNode]
  · intro name isOrphan h
    simp [interactionsRootSet, buildPodsInteractionsQuery, h,
      matchesInteractionsFilter, List.mem_filter]

/-- Witness for C1 (amended) at a concrete graph and named target. -/
theorem C1_amended_witness :
    (⟨"frontend", []⟩ : InteractionPod) ∈
      interactionsRootSet [⟨"frontend", []⟩] "frontend" false :=
  ((C1_amended [⟨"frontend", []⟩] ⟨"frontend", []⟩).2.2 "frontend" false
    (by decide)).mpr (by decide)

/-- C10: for every non-wildcard target name, the interactions operation
builds the identical request for both values of the orphan flag, and hence
returns the same result against any store. -/
theorem C10_orphan_flag_no_effect (name : String) (h : name ≠ All) :
    buildPodsInteractionsQuery name true = buildPodsInteractionsQuery name false ∧
    (∀ store : InteractionsRootFilter → Except String String,
      RetrievePodsInteractions name true store =
        RetrievePodsInteractions name false store) := by
  have hq : buildPodsInteractionsQuery name true =
      buildPodsInteractionsQuery name false := by
    simp [buildPodsInteractionsQuery, h]
  exact ⟨hq, fun store => by rw [RetrievePodsInteractions,
    RetrievePodsInteractions, hq]⟩

/-- Witness for C10 at the concrete named target "frontend". -/
theorem C10_orphan_flag_no_effect_witness :
    buildPodsInteractionsQuery "frontend" true =
      buildPodsInteractionsQuery "frontend" false :=
  (C10_orphan_flag_no_effect "frontend" (by decide)).1

/-- C8: deduplication returns the distinct identifiers in first-occurrence
order (it equals the spec's first-occurrence deduplication of the identifier
sequence), it is keyed on the store-assigned identifier only (inputs with
the same identifier sequence but different names dedupe identically), and on
an input carrying one identifier three times and two other identifiers once
each it returns exactly those 3 identifiers in first-occurrence order. -/
theorem C8_removeDuplicates :
    (∀ ps : List Pod, removeDuplicates ps = dedupeSpec (ps.map Pod.uid)) ∧
    (∀ ps qs : List Pod, ps.map Pod.uid = qs.map Pod.uid →
      removeDuplicates ps = removeDuplicates qs) ∧
    removeDuplicates
      [⟨"u1", "a", 0, 0⟩, ⟨"u2", "b", 0, 0⟩, ⟨"u1", "c", 0, 0⟩,
       ⟨"u3", "d", 0, 0⟩, ⟨"u1", "e", 0, 0⟩] = ["u1", "u2", "u3"] := by
  refine ⟨removeDuplicates_eq_dedupeSpec, ?_, by decide⟩
  intro ps qs h
  rw [removeDuplicates_eq_dedupeSpec, removeDuplicates_eq_dedupeSpec, h]

/-- Witness for C8 at two concrete inputs sharing identifiers but not
names. -/
theorem C8_removeDuplicates_witness :
    removeDuplicates [⟨"u1", "a", 0, 0⟩, ⟨"u1", "b", 0, 0⟩] =
      removeDuplicates [⟨"u1", "x", 3, 4⟩, ⟨"u1", "y", 5, 6⟩] :=
  C8_removeDuplicates.2.1 [⟨"u1", "a", 0, 0⟩, ⟨"u1", "b", 0, 0⟩]
    [⟨"u1", "x", 3, 4⟩, ⟨"u1", "y", 5, 6⟩] (by decide)

/-- C2: the pricing resolution returns the process-wide default CPU and
memory prices when the store lookup fails, when it returns zero matching
pods, and when the matched node exists in the graph but has no recorded
override price (in which case the lookup decodes to zero entries); and for
every response it returns a pair of prices (it never fails outward). -/
theorem C2_pricing_defaults (g : List StoredPod) (target : String) :
    getPricePerResourceForPod (.error ()) =
      (DefaultCPUCostInFloat64, DefaultMemCostInFloat64) ∧
    getPricePerResourceForPod (.ok []) =
      (DefaultCPUCostInFloat64, DefaultMemCostInFloat64) ∧
    ((∀ p ∈ g, p.name = target → p.cpuPrice = none ∧ p.memoryPrice = none) →
      getPricePerResourceForPod (.ok (execPriceLookup g target)) =
        (DefaultCPUCostInFloat64, DefaultMemCostInFloat64)) ∧
    (∀ resp : Except Unit (List Pod),
      ∃ cpu mem, getPricePerResourceForPod resp = (cpu, mem)) := by
  refine ⟨rfl, rfl, ?_, fun resp => ⟨_, _, rfl⟩⟩
  intro hnone
  have hempty : execPriceLookup g target = [] := by
    rw [execPriceLookup, List.filterMap_eq_nil_iff]
    intro p hp
    rw [List.mem_filter] at hp
    have hname : p.name = target := by simpa using hp.2
    obtain ⟨hc, hm⟩ := hnone p hp.1 hname
    simp [hc, hm]
  rw [hempty]
  rfl

/-- Witness for C2 at a graph whose only matching node has no recorded
override price. -/
theorem C2_pricing_defaults_witness :
    getPricePerResourceForPod
        (.ok (execPriceLookup [⟨"web", none, none⟩] "web")) =
      (DefaultCPUCostInFloat64, DefaultMemCostInFloat64) :=
  (C2_pricing_defaults [⟨"web", none, none⟩] "web").2.2.1 (by decide)

/-- C3: the claim fails on the code for the empty target: only the wildcard
`All` is short-circuited, so `RetrievePodHierarchy ""` issues its store call
(count 1) and passes the store's response through instead of returning the
empty result. -/
theorem C3_counterexample :
    ¬ ((RetrievePodHierarchy "" (.ok ⟨some "d"⟩)).1 = ⟨none⟩ ∧
       (RetrievePodHierarchy "" (.ok ⟨some "d"⟩)).2 = 0) := by
  decide

/-- C3 (amended): for the wildcard target `All` both the hierarchy operation
and the cost-annotated hierarchy (metrics) operation return the empty result
with zero store calls; the empty target `""` is not special-cased — it
issues the operation's usual store calls (one for hierarchy, two for
metrics). -/
theorem C3_amended (respH respM : Except Unit JSONDataWrapper)
    (priceResp : Except Unit (List Pod)) (w : ℚ) :
    RetrievePodHierarchy All respH = (⟨none⟩, 0) ∧
    RetrievePodMetrics All w priceResp respM = (⟨none⟩, 0) ∧
    (RetrievePodHierarchy "" respH).2 = 1 ∧
    (RetrievePodMetrics "" w priceResp respM).2 = 2 := by
  refine ⟨?_, ?_, ?_, ?_⟩
  · rw [RetrievePodHierarchy, if_pos rfl]
  · rw [RetrievePodMetrics, if_pos rfl]
  · rw [RetrievePodHierarchy, if_neg (by decide)]
  · rw [RetrievePodMetrics, if_neg (by decide)]

/-- C9: against a failing store, the interactions operation returns `nil`,
the hierarchy and metrics operations return the empty wrapper (none of the
three surfaces an error), while the label-filtered identifier operation and
the live-pod enumeration operation propagate the store error to the
caller. -/
theorem C9_store_error_policy (name : String) (isOrphan : Bool) (e : String)
    (err : Unit) (w : ℚ) (priceResp : Except Unit (List Pod)) :
    RetrievePodsInteractions name isOrphan (fun _q => .error e) = none ∧
    (RetrievePodHierarchy name (.error err)).1 = ⟨none⟩ ∧
    (RetrievePodMetrics name w priceResp (.error err)).1 = ⟨none⟩ ∧
    RetrievePodsUIDsByLabelsFilter (.error err) = .error err ∧
    RetrievePodsInteractionsForAllLivePodsWithCount (.error err) =
      .error err := by
  refine ⟨rfl, ?_, ?_, rfl, rfl⟩
  · by_cases h : name = All <;>
      simp [RetrievePodHierarchy, h, getJSONDataFromQuery]
  · by_cases h : name = All <;>
      simp [RetrievePodMetrics, h, getJSONDataFromQuery]

/-- C4: the in-window elapsed seconds of the metrics query (the same
expression for the parent node and each child node) equal
`min(now - startTime, secondsSinceBillingWindowStart)`; for a node that
started before the billing-window start and has no `endTime` the duration is
exactly `secondsSinceBillingWindowStart / 3600`, and for a node with no
`endTime` whose `now - startTime` is below the window literal it is
`(now - startTime) / 3600`. -/
theorem C4_window_clipping (now st windowStart w : ℚ) :
    secondsSinceStartExpr now st w = min (now - st) w ∧
    (st < windowStart →
      durationInHoursExpr now st none (now - windowStart) =
        (now - windowStart) / 3600) ∧
    (now - st < w →
      durationInHoursExpr now st none w = (now - st) / 3600) := by
  refine ⟨?_, ?_, ?_⟩
  · rw [secondsSinceStartExpr, sinceSeconds, min_def]
    split_ifs <;> first | rfl | linarith
  · intro h
    rw [durationInHoursExpr, secondsSinceStartExpr, sinceSeconds,
      if_pos (by linarith)]
    simp [secondsSinceEndExpr, isTerminatedCount]
  · intro h
    rw [durationInHoursExpr, secondsSinceStartExpr, sinceSeconds,
      if_neg (by linarith)]
    simp [secondsSinceEndExpr, isTerminatedCount]

/-- Witness for C4 at two concrete nodes: one started before the window
(600 seconds into the window, duration 600/3600 h), one started 300 seconds
ago inside the window (duration 300/3600 h). -/
theorem C4_window_clipping_witness :
    durationInHoursExpr 1000 0 none (1000 - 400) = (1000 - 400) / 3600 ∧
    durationInHoursExpr 1000 700 none 600 = (1000 - 700) / 3600 :=
  ⟨(C4_window_clipping 1000 0 400 600).2.1 (by norm_num),
   (C4_window_clipping 1000 700 400 600).2.2 (by norm_num)⟩

/-- C5: the claim's "always strictly less" fails on the code: a node
terminated exactly at the store's evaluation time (`endTime = now`, so
`since(endTime) = 0`) gets the same `durationInHours` as the otherwise
identical non-terminated node — the terminated-node formula holds, but the
comparison is not strict. -/
theorem C5_counterexample :
    durationInHoursExpr 100 40 (some 100) 1000 =
      (secondsSinceStartExpr 100 40 1000 - (100 - 100)) / 3600 ∧
    ¬ (durationInHoursExpr 100 40 (some 100) 1000 <
        durationInHoursExpr 100 40 none 1000) := by
  refine ⟨by norm_num [durationInHoursExpr, secondsSinceStartExpr,
    secondsSinceEndExpr, isTerminatedCount, sinceSeconds], ?_⟩
  norm_num [durationInHoursExpr, secondsSinceStartExpr,
    secondsSinceEndExpr, isTerminatedCount, sinceSeconds]

/-- C5 (amended): for every terminated node the computed `durationInHours`
equals `(secondsSinceStart - (now - endTime)) / 3600`, and it is strictly
less than the duration of an otherwise identical node with no `endTime`
whenever `endTime` is strictly before `now` (at `endTime = now` the two
coincide). -/
theorem C5_terminated_duration (now st et w : ℚ) :
    durationInHoursExpr now st (some et) w =
      (secondsSinceStartExpr now st w - (now - et)) / 3600 ∧
    (et < now →
      durationInHoursExpr now st (some et) w <
        durationInHoursExpr now st none w) := by
  constructor
  · rw [durationInHoursExpr]
    simp [secondsSinceEndExpr, isTerminatedCount, sinceSeconds]
  · intro h
    rw [durationInHoursExpr, durationInHoursExpr]
    apply (div_lt_div_iff_of_pos_right (by norm_num : (0:ℚ) < 3600)).mpr
    simp only [secondsSinceEndExpr, isTerminatedCount, sinceSeconds,
      Option.getD_some]
    norm_num
    linarith

/-- Witness for C5 (amended) at a node terminated 50 seconds before `now`. -/
theorem C5_terminated_duration_witness :
    durationInHoursExpr 100 40 (some 50) 1000 <
      durationInHoursExpr 100 40 none 1000 :=
  (C5_terminated_duration 100 40 50 1000).2 (by norm_num)

/-- C6: in the metrics query each resource cost expression is
`quantity * durationInHours * unitPrice`, where the CPU and memory unit
price literals are exactly the pair obtained from the pricing resolver for
the target and the storage cost literal is always the global default storage
price — the built query carries no per-node storage override. -/
theorem C6_cost_expressions (name : String) (w : ℚ)
    (priceResp : Except Unit (List Pod)) (now st : ℚ) (et : Option ℚ)
    (cpu memory pvcStorage : ℚ) :
    nodeCpuCost (buildPodMetricsQuery name w priceResp) now st et cpu =
      cpu * durationInHoursExpr now st et w *
        (getPricePerResourceForPod priceResp).1 ∧
    nodeMemoryCost (buildPodMetricsQuery name w priceResp) now st et memory =
      memory * durationInHoursExpr now st et w *
        (getPricePerResourceForPod priceResp).2 ∧
    nodeStorageCost (buildPodMetricsQuery name w priceResp) now st et
        pvcStorage =
      pvcStorage * durationInHoursExpr now st et w *
        DefaultStorageCostPerGBPerHour ∧
    (buildPodMetricsQuery name w priceResp).storagePrice =
      DefaultStorageCostPerGBPerHour :=
  ⟨rfl, rfl, rfl, rfl⟩

/-- C7: the label-filtered identifier operation combines all provided
label/value pairs into a single OR predicate: an identifier is returned
exactly when some label node matching one of the pairs has the pod among its
association targets (no AND across keys or values), resolved through the
intermediate variable binding from matching label nodes to their pods.  At
the spec's example filter (tier=frontend OR tier=backend OR env=prod) a
pod carrying only `env=prod` is returned and a pod carrying none of the
three pairs is not. -/
theorem C7_label_filter_or (g : List LabelNode)
    (labels : List (String × List String)) (u : String) :
    RetrievePodsUIDsByLabelsFilter (.ok (evalLabelsQuery g labels)) =
      .ok (removeDuplicates (evalLabelsQuery g labels)) ∧
    (u ∈ removeDuplicates (evalLabelsQuery g labels) ↔
      ∃ ln ∈ g, labelFilterPredicate labels ln = true ∧
        u ∈ ln.podTargets.map Pod.uid) ∧
    (labelFilterPredicate labels = fun ln =>
      labels.any (fun kv => kv.2.any (fun v =>
        ln.key == kv.1 && ln.value == v))) ∧
    ("pEnv" ∈ removeDuplicates (evalLabelsQuery
        [⟨"env", "prod", [⟨"pEnv", "env-pod", 0, 0⟩]⟩,
         ⟨"team", "x", [⟨"pNone", "other-pod", 0, 0⟩]⟩]
        [("tier", ["frontend", "backend"]), ("env", ["prod"])]) ∧
     "pNone" ∉ removeDuplicates (evalLabelsQuery
        [⟨"env", "prod", [⟨"pEnv", "env-pod", 0, 0⟩]⟩,
         ⟨"team", "x", [⟨"pNone", "other-pod", 0, 0⟩]⟩]
        [("tier", ["frontend", "backend"]), ("env", ["prod"])])) := by
  refine ⟨rfl, ?_, rfl, by decide, by decide⟩
  rw [mem_removeDuplicates, List.mem_map]
  constructor
  · rintro ⟨p, hp, rfl⟩
    obtain ⟨ln, hln, hpred, hmem⟩ := (mem_evalLabelsQuery p g labels).mp hp
    exact ⟨ln, hln, hpred, List.mem_map_of_mem Pod.uid hmem⟩
  · rintro ⟨ln, hln, hpred, hu⟩
    obtain ⟨p, hp, rfl⟩ := List.mem_map.mp hu
    exact ⟨p, (mem_evalLabelsQuery p g labels).mpr ⟨ln, hln, hpred, hp⟩, rfl⟩
